import Mathlib

/-!
Shallow embedding of the authentication subsystem of the Express/Prisma
backend: `src/middleware/auth.js` (token issuing and the Auth Gate),
`src/config/passport.js` (local login and the Google/GitHub OAuth
resolvers) and `src/controllers/authController.js` (registration and
profile endpoints).  The Prisma user table is modelled as a `List User`;
`findFirst`/`findUnique` become `List.find?`, `create` appends, `update`
maps over the list replacing the record with the given id.  JavaScript
string operations (`split`, `||` falsiness, template literals) are
embedded by explicit functions below.
-/

/-- JavaScript `String.prototype.split(sep)` on a character list:
`"a b".split(" ") = ["a","b"]`, `"".split(" ") = [""]`,
`" x".split(" ") = ["","x"]`. -/
def splitChAux (sep : Char) : List Char → List (List Char)
  | [] => [[]]
  | c :: rest =>
    match splitChAux sep rest with
    | [] => [[]]
    | h :: t => if c = sep then [] :: h :: t else (c :: h) :: t

/-- JavaScript `s.split(sep)` for a one-character separator. -/
def jsSplit (s : String) (sep : Char) : List String :=
  (splitChAux sep s.data).map String.mk

/-- JavaScript `a || d` where `a` is a possibly-`undefined` string:
`undefined` and `""` are falsy. -/
def jsOrS : Option String → String → String
  | none, d => d
  | some s, d => if s = "" then d else s

/-- JavaScript truthiness of a possibly-`undefined` string. -/
def jsTruthyS : Option String → Bool
  | none => false
  | some s => s != ""

/-- JavaScript template-literal stringification of a possibly-`undefined`
string (`undefined` prints as `"undefined"`). -/
def jsStr : Option String → String
  | none => "undefined"
  | some s => s

/-- JavaScript `s.replace(/\s+/g, "_").toLowerCase()`: collapse each
maximal whitespace run to one underscore and lowercase the rest.  The
flag records whether the previous character was whitespace. -/
def collapseWsAux : Bool → List Char → List Char
  | _, [] => []
  | prevWs, c :: rest =>
    if c.isWhitespace then
      if prevWs then collapseWsAux true rest
      else '_' :: collapseWsAux true rest
    else c.toLower :: collapseWsAux false rest

/-- `profile.displayName.replace(/\s+/g, "_").toLowerCase()` from the
GitHub strategy. -/
def ghSlug (s : String) : String :=
  String.mk (collapseWsAux false s.data)

/-- A row of the Prisma `User` table (`password` is the stored hash and
is `none` for OAuth-only accounts). -/
structure User where
  id : Nat
  username : String
  firstName : String
  lastName : String
  email : String
  age : Nat
  password : Option String
  provider : String
  providerId : Option String
  refreshToken : Option String
  createdAt : Nat
  updatedAt : Nat
deriving DecidableEq, Repr

/-- The `select` projection used by the middleware and controllers:
id, username, firstName, lastName, email, age, provider, createdAt,
updatedAt — no password, providerId or refreshToken. -/
structure UserView where
  id : Nat
  username : String
  firstName : String
  lastName : String
  email : String
  age : Nat
  provider : String
  createdAt : Nat
  updatedAt : Nat
deriving DecidableEq, Repr

/-- The shape produced by `const { password, ...rest } = user`: every
column except the password. -/
structure UserNoPassword where
  id : Nat
  username : String
  firstName : String
  lastName : String
  email : String
  age : Nat
  provider : String
  providerId : Option String
  refreshToken : Option String
  createdAt : Nat
  updatedAt : Nat
deriving DecidableEq, Repr

def toUserView (u : User) : UserView :=
  { id := u.id, username := u.username, firstName := u.firstName,
    lastName := u.lastName, email := u.email, age := u.age,
    provider := u.provider, createdAt := u.createdAt, updatedAt := u.updatedAt }

def stripPassword (u : User) : UserNoPassword :=
  { id := u.id, username := u.username, firstName := u.firstName,
    lastName := u.lastName, email := u.email, age := u.age,
    provider := u.provider, providerId := u.providerId,
    refreshToken := u.refreshToken, createdAt := u.createdAt,
    updatedAt := u.updatedAt }

/-- `prisma.user.findUnique({ where: { id }, select: ... })`. -/
def findUserView (db : List User) (uid : Nat) : Option UserView :=
  (db.find? (fun u => u.id == uid)).map toUserView

/-- Fresh id the store assigns to a created row. -/
def freshId (db : List User) : Nat :=
  db.foldr (fun u m => max u.id m) 0 + 1

/-- `prisma.user.update({ where: { id: uid }, data })`: replace the row
with that id. -/
def updateUser (db : List User) (uid : Nat) (u2 : User) : List User :=
  db.map (fun u => if u.id = uid then u2 else u)

/-- The claims a signed token carries (`jwt.sign({ userId }, secret,
{ expiresIn })` also records `iat` and computes `exp`). -/
structure JwtPayload where
  userId : Nat
  iat : Nat
  exp : Nat
deriving DecidableEq, Repr

/-- A token string as the verifier sees it: either a well-formed token
signed with some secret, or garbage (wrong structure). -/
inductive Jwt where
  | signed (payload : JwtPayload) (secret : String)
  | garbage (raw : String)
deriving DecidableEq, Repr

inductive JwtError where
  | jsonWebTokenError
  | tokenExpiredError
deriving DecidableEq, Repr

/-- Default `JWT_EXPIRES_IN` of `'7d'`, in seconds. -/
def defaultExpiresIn : Nat := 7 * 24 * 60 * 60

/-- `generateToken` from `src/middleware/auth.js`: sign `{ userId }`
with the configured secret and expiry window. -/
def generateToken (userId now : Nat) (secret : String) (expiresIn : Nat) : Jwt :=
  .signed { userId := userId, iat := now, exp := now + expiresIn } secret

/-- `jwt.verify(token, secret)` at clock time `now`: signature / structure
failures raise `JsonWebTokenError`; a token whose `exp` is not in the
future raises `TokenExpiredError`; otherwise the payload is returned. -/
def jwtVerify (tok : Jwt) (secret : String) (now : Nat) : Except JwtError JwtPayload :=
  match tok with
  | .garbage _ => .error .jsonWebTokenError
  | .signed p s =>
    if s = secret then
      if p.exp ≤ now then .error .tokenExpiredError else .ok p
    else .error .jsonWebTokenError

/-- Outcome of an Express middleware: either a rejection response
(status, error, message) or `next()` with the request's user slot. -/
inductive MWOutcome where
  | reject (status : Nat) (error : String) (message : String)
  | next (user : Option UserView)
deriving DecidableEq, Repr

/-- `const token = authHeader && authHeader.split(' ')[1]` followed by
the `if (!token)` falsiness test: the extracted value, `none` when
falsy. -/
def extractToken : Option String → Option String
  | none => none
  | some h =>
    match (jsSplit h ' ')[1]? with
    | none => none
    | some t => if t = "" then none else some t

/-- `authenticateJWT` from `src/middleware/auth.js`.  `decode` models the
ambient correspondence between token strings and token values. -/
def authenticateJWT (decode : String → Jwt) (secret : String) (now : Nat)
    (db : List User) (authHeader : Option String) : MWOutcome :=
  match extractToken authHeader with
  | none => .reject 401 "Unauthorized" "Access token is required"
  | some t =>
    match jwtVerify (decode t) secret now with
    | .error .jsonWebTokenError => .reject 401 "Unauthorized" "Invalid token"
    | .error .tokenExpiredError => .reject 401 "Unauthorized" "Token expired"
    | .ok p =>
      match findUserView db p.userId with
      | none => .reject 401 "Unauthorized" "User not found"
      | some u => .next (some u)

/-- `authenticateSession`: pass through iff `req.isAuthenticated()`;
the session user was attached by passport beforehand. -/
def authenticateSession (isAuth : Bool) (sessionUser : Option UserView) : MWOutcome :=
  if isAuth then .next sessionUser
  else .reject 401 "Unauthorized" "Please log in to access this resource"

/-- `authenticate`: token path when the header yields a token, session
fallback otherwise. -/
def authenticate (decode : String → Jwt) (secret : String) (now : Nat)
    (db : List User) (authHeader : Option String)
    (isAuth : Bool) (sessionUser : Option UserView) : MWOutcome :=
  match extractToken authHeader with
  | some _ => authenticateJWT decode secret now db authHeader
  | none => authenticateSession isAuth sessionUser

/-- `optionalAuth`: resolve the token if present, swallow every token
error, never reject.  `reqUser` is the request's user slot as passport
left it (the session user, or `none`). -/
def optionalAuth (decode : String → Jwt) (secret : String) (now : Nat)
    (db : List User) (authHeader : Option String)
    (reqUser : Option UserView) : MWOutcome :=
  match extractToken authHeader with
  | none => .next reqUser
  | some t =>
    match jwtVerify (decode t) secret now with
    | .error _ => .next reqUser
    | .ok p =>
      match findUserView db p.userId with
      | some u => .next (some u)
      | none => .next reqUser

/-- Outcome of `register` in `src/controllers/authController.js`:
a 400 conflict or a 201 with the selected user view and a fresh token. -/
inductive RegisterOutcome where
  | conflict (message : String)
  | created (user : UserView) (token : Jwt)
deriving DecidableEq, Repr

/-- `register`: look up `findFirst({ OR: [{ email }, { username }] })`;
on a hit answer 400 with a message chosen by whether the found record's
email equals the request email; otherwise hash the password, create the
row with `provider: 'local'` and answer 201 with the view and a token. -/
def register (hash : String → String) (secret : String) (expiresIn : Nat)
    (now : Nat) (db : List User)
    (username firstName lastName email : String) (age : Nat)
    (password : String) : RegisterOutcome × List User :=
  match db.find? (fun u => u.email == email || u.username == username) with
  | some existingUser =>
    (.conflict (if existingUser.email = email
        then "User with this email already exists"
        else "Username is already taken"), db)
  | none =>
    let u : User :=
      { id := freshId db, username := username, firstName := firstName,
        lastName := lastName, email := email, age := age,
        password := some (hash password), provider := "local",
        providerId := none, refreshToken := none,
        createdAt := now, updatedAt := now }
    (.created (toUserView u) (generateToken u.id now secret expiresIn),
     db ++ [u])

/-- Outcome of the passport `LocalStrategy` callback:
`done(null, false, { message })` or `done(null, userWithoutPassword)`. -/
inductive LoginOutcome where
  | strategyFail (message : String)
  | strategyOk (user : UserNoPassword)
deriving DecidableEq, Repr

/-- The `LocalStrategy` callback from `src/config/passport.js`.
`verify` models `bcrypt.compare(plaintext, storedHash)`. -/
def localStrategy (verify : String → String → Bool)
    (db : List User) (email password : String) : LoginOutcome :=
  match db.find? (fun u => u.email == email) with
  | none => .strategyFail "Invalid email or password"
  | some user =>
    match user.password with
    | none => .strategyFail "Please use OAuth to login"
    | some stored =>
      if verify password stored then .strategyOk (stripPassword user)
      else .strategyFail "Invalid email or password"

/-- A Google OAuth profile as the strategy callback reads it:
`profile.id`, `profile.emails` (list of values, may be empty) and the
optional `profile.name.givenName` / `profile.name.familyName`. -/
structure GoogleProfile where
  id : String
  emails : List String
  givenName : Option String
  familyName : Option String
deriving DecidableEq, Repr

/-- The `findFirst` condition of the Google callback:
`OR: [{ email }, { provider: 'google', providerId: profile.id }]`. -/
def googleMatch (p : GoogleProfile) (em : String) (u : User) : Bool :=
  u.email == em || (u.provider == "google" && u.providerId == some p.id)

/-- The Google strategy callback.  `profile.emails[0].value` throws when
no email is present (the catch turns it into `done(error)`), hence the
`Except`.  On a lookup hit the record is updated with the Google linkage
(an `undefined` refresh token leaves the stored one untouched); otherwise
a row is created with synthesized username, default name parts and age 18. -/
def googleCallback (db : List User) (refreshTok : Option String)
    (p : GoogleProfile) (now : Nat) :
    Except String (UserNoPassword × List User) :=
  match p.emails.head? with
  | none => .error "TypeError: cannot read profile.emails[0]"
  | some em =>
    match db.find? (googleMatch p em) with
    | some ex =>
      let ex2 : User :=
        { ex with
          provider := "google"
          providerId := some p.id
          refreshToken := (match refreshTok with
            | none => ex.refreshToken
            | some r => some r)
          updatedAt := now }
      .ok (stripPassword ex2, updateUser db ex.id ex2)
    | none =>
      let u : User :=
        { id := freshId db,
          username := (jsSplit em '@').headD "" ++ "_" ++ toString now,
          firstName := jsOrS p.givenName "Unknown",
          lastName := jsOrS p.familyName "User",
          email := em, age := 18, password := none,
          provider := "google", providerId := some p.id,
          refreshToken := refreshTok,
          createdAt := now, updatedAt := now }
      .ok (stripPassword u, db ++ [u])

/-- A GitHub OAuth profile: `profile.id`, the optional email list, and
the optional `profile.username` / `profile.displayName`. -/
structure GitHubProfile where
  id : String
  emails : List String
  username : Option String
  displayName : Option String
deriving DecidableEq, Repr

/-- The `findFirst` condition of the GitHub callback:
`OR: [{ email: profile.emails?.[0]?.value }, { provider: 'github',
providerId: profile.id }].filter(Boolean)`.  Both objects are truthy, so
the filter keeps both; when the email is `undefined` Prisma drops the
field, leaving an empty condition that matches every row. -/
def githubMatch (p : GitHubProfile) (u : User) : Bool :=
  (match p.emails.head? with
   | none => true
   | some e => u.email == e)
  || (u.provider == "github" && u.providerId == some p.id)

/-- The GitHub strategy callback.  Never throws: a missing email falls
back to the `` `${profile.username}@github.local` `` placeholder, missing
name parts fall back through username/displayName to "Unknown"/"User". -/
def githubCallback (db : List User) (refreshTok : Option String)
    (p : GitHubProfile) (now : Nat) : UserNoPassword × List User :=
  match db.find? (githubMatch p) with
  | some ex =>
    let ex2 : User :=
      { ex with
        provider := "github"
        providerId := some p.id
        refreshToken := (match refreshTok with
          | none => ex.refreshToken
          | some r => some r)
        updatedAt := now }
    (stripPassword ex2, updateUser db ex.id ex2)
  | none =>
    let email := jsOrS p.emails.head? (jsStr p.username ++ "@github.local")
    let uname := jsOrS p.username
      (jsOrS (p.displayName.map ghSlug) ("github_user_" ++ toString now))
    let fn := jsOrS (p.displayName.map (fun d => (jsSplit d ' ').headD ""))
      (jsOrS p.username "Unknown")
    let ln := jsOrS
      (p.displayName.map (fun d => String.intercalate " " ((jsSplit d ' ').drop 1)))
      "User"
    let u : User :=
      { id := freshId db, username := uname, firstName := fn,
        lastName := ln, email := email, age := 18, password := none,
        provider := "github", providerId := some p.id,
        refreshToken := refreshTok, createdAt := now, updatedAt := now }
    (stripPassword u, db ++ [u])

/-- Outcome of the profile controllers. -/
inductive ProfileOutcome where
  | notFound
  | conflict (message : String)
  | serverError
  | ok (user : UserView)
deriving DecidableEq, Repr

/-- `getProfile`: `findUnique({ where: { id: req.user.id }, select })`,
404 when absent. -/
def getProfile (db : List User) (userId : Nat) : ProfileOutcome :=
  match findUserView db userId with
  | none => .notFound
  | some u => .ok u

/-- `updateProfile`: when a truthy username or email is supplied, check
`findFirst({ AND: [{ id: { not: userId } }, { OR: [...] }] })` and answer
409-style 400 on a hit; otherwise apply the defined fields and return the
selected view of the updated row. -/
def updateProfile (db : List User) (userId : Nat) (now : Nat)
    (username firstName lastName email : Option String)
    (age : Option Nat) : ProfileOutcome × List User :=
  let conflictHit : Option User :=
    if jsTruthyS username || jsTruthyS email then
      db.find? (fun u => u.id != userId &&
        ((jsTruthyS username && u.username == jsStr username) ||
         (jsTruthyS email && u.email == jsStr email)))
    else none
  match conflictHit with
  | some existingUser =>
    (.conflict (if (match username with
        | some un => existingUser.username == un
        | none => false)
      then "Username is already taken" else "Email is already in use"), db)
  | none =>
    match db.find? (fun u => u.id == userId) with
    | none => (.serverError, db)
    | some u =>
      let u2 : User :=
        { u with
          username := username.getD u.username
          firstName := firstName.getD u.firstName
          lastName := lastName.getD u.lastName
          email := email.getD u.email
          age := age.getD u.age
          updatedAt := now }
      (.ok (toUserView u2), updateUser db userId u2)

/-- A JSON scalar as it appears in a serialized user object. -/
inductive JVal where
  | s (v : String)
  | n (v : Nat)
  | optS (v : Option String)
deriving DecidableEq, Repr

/-- The JSON object a selected user view serializes to. -/
def viewJson (u : UserView) : List (String × JVal) :=
  [("id", .n u.id), ("username", .s u.username),
   ("firstName", .s u.firstName), ("lastName", .s u.lastName),
   ("email", .s u.email), ("age", .n u.age), ("provider", .s u.provider),
   ("createdAt", .n u.createdAt), ("updatedAt", .n u.updatedAt)]

/-- The JSON object a destructure-stripped user serializes to (every
column of the row except `password`). -/
def strippedJson (u : UserNoPassword) : List (String × JVal) :=
  [("id", .n u.id), ("username", .s u.username),
   ("firstName", .s u.firstName), ("lastName", .s u.lastName),
   ("email", .s u.email), ("age", .n u.age), ("provider", .s u.provider),
   ("providerId", .optS u.providerId),
   ("refreshToken", .optS u.refreshToken),
   ("createdAt", .n u.createdAt), ("updatedAt", .n u.updatedAt)]

deriving instance DecidableEq for Except

theorem find?_updateUser {m : User → Bool} {db : List User} {ex : User}
    (ex2 : User) (h : db.find? m = some ex) (h2 : m ex2 = true) :
    (updateUser db ex.id ex2).find? m = some ex2 := by
  induction db with
  | nil => simp [List.find?] at h
  | cons a t ih =>
    by_cases ha : m a = true
    · rw [List.find?_cons_of_pos _ ha] at h
      injection h with h
      subst h
      simp only [updateUser, List.map_cons, if_pos rfl]
      exact List.find?_cons_of_pos _ h2
    · rw [List.find?_cons_of_neg _ ha] at h
      simp only [updateUser, List.map_cons]
      by_cases hid : a.id = ex.id
      · rw [if_pos hid]
        exact List.find?_cons_of_pos _ h2
      · rw [if_neg hid]
        rw [List.find?_cons_of_neg _ ha]
        exact ih h

theorem find?_append_single {m : User → Bool} {db : List User} {c : User}
    (h : db.find? m = none) (hc : m c = true) :
    (db ++ [c]).find? m = some c := by
  rw [List.find?_append, h]
  simp [List.find?_cons_of_pos _ hc]

theorem find?_of_unique {m : User → Bool} {db : List User} {B : User}
    (hB : B ∈ db) (hmB : m B = true)
    (huniq : ∀ A ∈ db, m A = true → A = B) :
    db.find? m = some B := by
  induction db with
  | nil => cases hB
  | cons a t ih =>
    by_cases ha : m a = true
    · have heq : a = B := huniq a (List.mem_cons_self a t) ha
      subst heq
      exact List.find?_cons_of_pos _ ha
    · rw [List.find?_cons_of_neg _ ha]
      have hB2 : B ∈ t := by
        rcases List.mem_cons.mp hB with h | h
        · exact absurd (h ▸ hmB) ha
        · exact h
      exact ih hB2 (fun A hA hmA => huniq A (List.mem_cons_of_mem _ hA) hmA)

/-- C4: Token Issuer round trip: `validate(issue(userId))` returns that
userId (in the signed payload) at any time before the 7-day default
expiry window elapses; once the clock exceeds the encoded expiry the
verification fails with the expiry reason; and verification fails with
the malformed reason when the signature does not check out (wrong
secret) or the token structure is invalid. -/
theorem token_roundtrip_spec (uid now : Nat) (secret : String) :
    (∀ t, t < now + defaultExpiresIn →
      jwtVerify (generateToken uid now secret defaultExpiresIn) secret t =
        .ok { userId := uid, iat := now, exp := now + defaultExpiresIn })
    ∧ (∀ t, now + defaultExpiresIn < t →
      jwtVerify (generateToken uid now secret defaultExpiresIn) secret t =
        .error .tokenExpiredError)
    ∧ (∀ p s2 t, s2 ≠ secret →
      jwtVerify (.signed p s2) secret t = .error .jsonWebTokenError)
    ∧ (∀ raw t, jwtVerify (.garbage raw) secret t = .error .jsonWebTokenError) := by
  refine ⟨?_, ?_, ?_, ?_⟩
  · intro t ht
    simp [jwtVerify, generateToken, Nat.not_le.mpr ht]
  · intro t ht
    simp [jwtVerify, generateToken, Nat.le_of_lt ht]
  · intro p s2 t hs
    simp [jwtVerify, hs]
  · intro raw t
    simp [jwtVerify]

theorem token_roundtrip_spec_witness :
    jwtVerify (generateToken 7 100 "s0" defaultExpiresIn) "s0" 200 =
      .ok { userId := 7, iat := 100, exp := 100 + defaultExpiresIn } :=
  (token_roundtrip_spec 7 100 "s0").1 200 (by decide)

/-- C2: the local login strategy: unknown email fails with the
credentials message; a passwordless (OAuth-only) record fails with the
"use OAuth" message; a failed password verification fails with the very
same credentials message as the unknown-email case; and a successful
verification returns the record with the password field stripped. -/
theorem loginLocal_spec (verify : String → String → Bool) (db : List User)
    (email password : String) :
    ((∀ u ∈ db, u.email ≠ email) →
      localStrategy verify db email password =
        .strategyFail "Invalid email or password")
    ∧ (∀ u, db.find? (fun x => x.email == email) = some u →
        (u.password = none →
          localStrategy verify db email password =
            .strategyFail "Please use OAuth to login")
        ∧ (∀ h, u.password = some h → verify password h = false →
          localStrategy verify db email password =
            .strategyFail "Invalid email or password")
        ∧ (∀ h, u.password = some h → verify password h = true →
          localStrategy verify db email password =
            .strategyOk (stripPassword u))) := by
  constructor
  · intro hno
    have hf : db.find? (fun x => x.email == email) = none := by
      rw [List.find?_eq_none]
      intro x hx
      simpa using hno x hx
    simp [localStrategy, hf]
  · intro u hu
    refine ⟨?_, ?_, ?_⟩
    · intro hp
      simp [localStrategy, hu, hp]
    · intro h hp hv
      simp [localStrategy, hu, hp, hv]
    · intro h hp hv
      simp [localStrategy, hu, hp, hv]

/-- A concrete local-account row used by the closed instances below. -/
def sampleLocal : User :=
  { id := 1, username := "jdoe", firstName := "J", lastName := "D",
    email := "j@x.com", age := 30, password := some "hash1",
    provider := "local", providerId := none, refreshToken := none,
    createdAt := 0, updatedAt := 0 }

theorem loginLocal_spec_witness :
    localStrategy (fun p h => p == h) [sampleLocal] "j@x.com" "hash1" =
      .strategyOk (stripPassword sampleLocal) :=
  ((loginLocal_spec (fun p h => p == h) [sampleLocal] "j@x.com" "hash1").2
    sampleLocal (by decide)).2.2 "hash1" rfl (by decide)

/-- Row whose username collides with the request below. -/
def regRowUsername : User :=
  { id := 1, username := "bob", firstName := "B", lastName := "B",
    email := "bob@x.com", age := 30, password := some "h1",
    provider := "local", providerId := none, refreshToken := none,
    createdAt := 0, updatedAt := 0 }

/-- Row whose email collides with the request below. -/
def regRowEmail : User :=
  { id := 2, username := "alice", firstName := "A", lastName := "A",
    email := "target@x.com", age := 30, password := some "h2",
    provider := "local", providerId := none, refreshToken := none,
    createdAt := 0, updatedAt := 0 }

def regDb : List User := [regRowUsername, regRowEmail]

/-- C1 counterexample: the request email `target@x.com` equals the email
of an existing record (`regRowEmail`), yet — because a different record
(`regRowUsername`) collides on username and is returned first by the
`findFirst` lookup — `register` answers with the username-collision
message, not the email-collision message the claim requires. -/
theorem register_mixed_collision_cex :
    regRowEmail ∈ regDb ∧ regRowEmail.email = "target@x.com" ∧
    (register (fun s => s) "sec" defaultExpiresIn 0 regDb
      "bob" "F" "L" "target@x.com" 25 "pw").1 =
      .conflict "Username is already taken" ∧
    "Username is already taken" ≠ "User with this email already exists" := by
  decide

/-- C1 amended: any email or username collision makes `register` fail
with an AlreadyExists conflict and leaves the store unchanged; the
message distinguishes the field of the *first* record the lookup returns
(its email against the request email), so the email message is
guaranteed when the email collides and no record collides on username,
and the username message when only the username collides; in the mixed
case the message follows the record found first. -/
theorem register_collision_amended (hash : String → String) (secret : String)
    (expiresIn now : Nat) (db : List User)
    (un fn ln em : String) (age : Nat) (pw : String) :
    (∀ ex, db.find? (fun u => u.email == em || u.username == un) = some ex →
      register hash secret expiresIn now db un fn ln em age pw =
        (.conflict (if ex.email = em then "User with this email already exists"
          else "Username is already taken"), db))
    ∧ ((∃ u ∈ db, u.email = em) ∨ (∃ u ∈ db, u.username = un) →
      ∃ msg, register hash secret expiresIn now db un fn ln em age pw =
        (.conflict msg, db))
    ∧ ((∃ u ∈ db, u.email = em) → (∀ u ∈ db, u.username ≠ un) →
      register hash secret expiresIn now db un fn ln em age pw =
        (.conflict "User with this email already exists", db))
    ∧ ((∃ u ∈ db, u.username = un) → (∀ u ∈ db, u.email ≠ em) →
      register hash secret expiresIn now db un fn ln em age pw =
        (.conflict "Username is already taken", db)) := by
  have hfind : ∀ ex, db.find? (fun u => u.email == em || u.username == un) = some ex →
      register hash secret expiresIn now db un fn ln em age pw =
        (.conflict (if ex.email = em then "User with this email already exists"
          else "Username is already taken"), db) := by
    intro ex hex
    simp [register, hex]
  have hsome : ((∃ u ∈ db, u.email = em) ∨ (∃ u ∈ db, u.username = un)) →
      ∃ ex, db.find? (fun u => u.email == em || u.username == un) = some ex := by
    intro hcol
    cases hf : db.find? (fun u => u.email == em || u.username == un) with
    | some ex => exact ⟨ex, rfl⟩
    | none =>
      exfalso
      rw [List.find?_eq_none] at hf
      rcases hcol with ⟨u, hu, he⟩ | ⟨u, hu, he⟩
      · exact hf u hu (by simp [he])
      · exact hf u hu (by simp [he])
  refine ⟨hfind, ?_, ?_, ?_⟩
  · intro hcol
    obtain ⟨ex, hex⟩ := hsome hcol
    exact ⟨_, hfind ex hex⟩
  · intro hcol hnoUn
    obtain ⟨ex, hex⟩ := hsome (Or.inl hcol)
    have hmem : ex ∈ db := List.mem_of_find?_eq_some hex
    have hp := List.find?_some hex
    have hem : ex.email = em := by
      rcases Bool.or_eq_true_iff.mp hp with h | h
      · exact eq_of_beq h
      · exact absurd (eq_of_beq h) (hnoUn ex hmem)
    rw [hfind ex hex, if_pos hem]
  · intro hcol hnoEm
    obtain ⟨ex, hex⟩ := hsome (Or.inr hcol)
    have hmem : ex ∈ db := List.mem_of_find?_eq_some hex
    have hp := List.find?_some hex
    have hem : ¬ ex.email = em := hnoEm ex hmem
    rw [hfind ex hex, if_neg hem]

theorem register_collision_amended_witness :
    register (fun s => s) "sec" defaultExpiresIn 0 [regRowEmail]
      "newname" "F" "L" "target@x.com" 25 "pw" =
      (.conflict "User with this email already exists", [regRowEmail]) :=
  (register_collision_amended (fun s => s) "sec" defaultExpiresIn 0 [regRowEmail]
    "newname" "F" "L" "target@x.com" 25 "pw").2.2.1
    ⟨regRowEmail, by decide, by decide⟩ (by decide)

/-- C3: with a token extracted from the Authorization header the Auth
Gate takes the token path exclusively (its outcome does not depend on
the session inputs); rejection reasons distinguish malformed from
expired tokens; a valid token whose user is gone rejects with the
user-not-found reason; on success the attached user is the view loaded
from the store for the decoded id; with no token the gate falls back to
session authentication. -/
theorem authGate_token_path_spec (decode : String → Jwt) (secret : String)
    (now : Nat) (db : List User) (hdr : Option String)
    (isAuth : Bool) (su : Option UserView) :
    (∀ t, extractToken hdr = some t →
      authenticate decode secret now db hdr isAuth su =
        authenticateJWT decode secret now db hdr
      ∧ (∀ isAuth2 su2,
        authenticate decode secret now db hdr isAuth su =
          authenticate decode secret now db hdr isAuth2 su2)
      ∧ (jwtVerify (decode t) secret now = .error .jsonWebTokenError →
        authenticateJWT decode secret now db hdr =
          .reject 401 "Unauthorized" "Invalid token")
      ∧ (jwtVerify (decode t) secret now = .error .tokenExpiredError →
        authenticateJWT decode secret now db hdr =
          .reject 401 "Unauthorized" "Token expired")
      ∧ (∀ p, jwtVerify (decode t) secret now = .ok p →
        (findUserView db p.userId = none →
          authenticateJWT decode secret now db hdr =
            .reject 401 "Unauthorized" "User not found")
        ∧ (∀ u, findUserView db p.userId = some u →
          authenticateJWT decode secret now db hdr = .next (some u))))
    ∧ (extractToken hdr = none →
      authenticate decode secret now db hdr isAuth su =
        authenticateSession isAuth su) := by
  constructor
  · intro t ht
    refine ⟨by simp [authenticate, ht], fun i2 s2 => by simp [authenticate, ht],
      ?_, ?_, ?_⟩
    · intro hv
      simp [authenticateJWT, ht, hv]
    · intro hv
      simp [authenticateJWT, ht, hv]
    · intro p hv
      exact ⟨fun hf => by simp [authenticateJWT, ht, hv, hf],
        fun u hf => by simp [authenticateJWT, ht, hv, hf]⟩
  · intro h
    simp [authenticate, h]

/-- Concrete decoder used by the closed instances: two well-formed
tokens signed with "sec" and garbage everywhere else. -/
def decodeSample : String → Jwt := fun s =>
  if s = "good" then .signed { userId := 1, iat := 0, exp := 1000 } "sec"
  else if s = "expired" then .signed { userId := 1, iat := 0, exp := 5 } "sec"
  else .garbage s

theorem authGate_token_path_spec_witness :
    authenticateJWT decodeSample "sec" 100 [sampleLocal] (some "Bearer expired") =
      .reject 401 "Unauthorized" "Token expired" :=
  ((authGate_token_path_spec decodeSample "sec" 100 [sampleLocal]
    (some "Bearer expired") false none).1 "expired" (by decide)).2.2.2.1 rfl

/-- C8: the optional-auth variant always calls `next`: whatever the
header, clock, store and prior request user, the outcome is a pass-
through; starting from an anonymous request an identity gets attached
exactly when the extracted token verifies and its user exists in the
store; and on any token verification error the request proceeds with
its user slot untouched. -/
theorem optionalAuth_never_rejects (decode : String → Jwt) (secret : String)
    (now : Nat) (db : List User) (hdr : Option String)
    (ru : Option UserView) :
    (∃ a, optionalAuth decode secret now db hdr ru = .next a)
    ∧ (∀ u, optionalAuth decode secret now db hdr none = .next (some u) →
      ∃ t p, extractToken hdr = some t
        ∧ jwtVerify (decode t) secret now = .ok p
        ∧ findUserView db p.userId = some u)
    ∧ (∀ t e, extractToken hdr = some t →
      jwtVerify (decode t) secret now = .error e →
      optionalAuth decode secret now db hdr ru = .next ru) := by
  refine ⟨?_, ?_, ?_⟩
  · cases het : extractToken hdr with
    | none => exact ⟨ru, by simp [optionalAuth, het]⟩
    | some t =>
      cases hv : jwtVerify (decode t) secret now with
      | error e => exact ⟨ru, by simp [optionalAuth, het, hv]⟩
      | ok p =>
        cases hf : findUserView db p.userId with
        | none => exact ⟨ru, by simp [optionalAuth, het, hv, hf]⟩
        | some u => exact ⟨some u, by simp [optionalAuth, het, hv, hf]⟩
  · intro u h
    cases het : extractToken hdr with
    | none =>
      simp [optionalAuth, het] at h
    | some t =>
      cases hv : jwtVerify (decode t) secret now with
      | error e =>
        simp [optionalAuth, het, hv] at h
      | ok p =>
        cases hf : findUserView db p.userId with
        | none =>
          simp [optionalAuth, het, hv, hf] at h
        | some u2 =>
          simp [optionalAuth, het, hv, hf] at h
          exact ⟨t, p, rfl, hv, by rw [hf, h]⟩
  · intro t e het hv
    simp [optionalAuth, het, hv]

theorem optionalAuth_never_rejects_witness :
    optionalAuth decodeSample "sec" 100 [sampleLocal] (some "Bearer bad") none =
      .next none :=
  (optionalAuth_never_rejects decodeSample "sec" 100 [sampleLocal]
    (some "Bearer bad") none).2.2 "bad" .jsonWebTokenError (by decide) rfl

theorem splitChAux_ne_nil (sep : Char) : ∀ cs : List Char, splitChAux sep cs ≠ []
  | [] => by simp [splitChAux]
  | c :: rest => by
    have h := splitChAux_ne_nil sep rest
    cases hr : splitChAux sep rest with
    | nil => exact absurd hr h
    | cons a l =>
      simp only [splitChAux, hr]
      by_cases hc : c = sep <;> simp [hc]

theorem splitChAux_no_sep {sep : Char} :
    ∀ {cs : List Char}, sep ∉ cs → splitChAux sep cs = [cs]
  | [], _ => rfl
  | c :: rest, h => by
    have hc : ¬ c = sep := fun he => h (he ▸ List.mem_cons_self c rest)
    have hr : splitChAux sep rest = [rest] :=
      splitChAux_no_sep (fun hm => h (List.mem_cons_of_mem _ hm))
    simp only [splitChAux]
    rw [hr]
    simp [hc]

theorem splitChAux_append {sep : Char} :
    ∀ {a : List Char} (b : List Char), sep ∉ a →
      splitChAux sep (a ++ sep :: b) = a :: splitChAux sep b
  | [], b, _ => by
    cases hr : splitChAux sep b with
    | nil => exact absurd hr (splitChAux_ne_nil sep b)
    | cons x l => simp [splitChAux, hr]
  | c :: a2, b, h => by
    have hc : ¬ c = sep := fun he => h (he ▸ List.mem_cons_self c a2)
    have hr : splitChAux sep (a2 ++ sep :: b) = a2 :: splitChAux sep b :=
      splitChAux_append b (fun hm => h (List.mem_cons_of_mem _ hm))
    simp only [List.cons_append, splitChAux, List.append_eq]
    rw [hr]
    simp [hc]

theorem extractToken_scheme (s v : String) (hs : ' ' ∉ s.data)
    (hv : ' ' ∉ v.data) (hv2 : v ≠ "") :
    extractToken (some (s ++ " " ++ v)) = some v := by
  have h1 : (" " : String).data = [' '] := rfl
  have hdata : (s ++ " " ++ v).data = s.data ++ ' ' :: v.data := by
    rw [String.data_append, String.data_append, h1, List.append_assoc]
    rfl
  have hsplit : jsSplit (s ++ " " ++ v) ' ' = [s, v] := by
    rw [jsSplit, hdata, splitChAux_append _ hs, splitChAux_no_sep hv]
    rfl
  simp only [extractToken]
  rw [hsplit]
  simp [hv2]

theorem extractToken_no_space (h : String) (hh : ' ' ∉ h.data) :
    extractToken (some h) = none := by
  have hsplit : jsSplit h ' ' = [h] := by
    rw [jsSplit, splitChAux_no_sep hh]
    rfl
  simp only [extractToken]
  rw [hsplit]
  rfl

/-- C10 (implicit): the gate never checks that the Authorization scheme
is `Bearer` — any header of the form `<scheme> <value>` (no spaces in
either part) yields `<value>` as the token and forces the token path;
a header with no space yields no token and the request falls through to
session authentication. -/
theorem bearer_scheme_unchecked (decode : String → Jwt) (secret : String)
    (now : Nat) (db : List User) (isAuth : Bool) (su : Option UserView) :
    (∀ s v : String, ' ' ∉ s.data → ' ' ∉ v.data → v ≠ "" →
      extractToken (some (s ++ " " ++ v)) = some v
      ∧ authenticate decode secret now db (some (s ++ " " ++ v)) isAuth su =
        authenticateJWT decode secret now db (some (s ++ " " ++ v)))
    ∧ (∀ h : String, ' ' ∉ h.data →
      extractToken (some h) = none
      ∧ authenticate decode secret now db (some h) isAuth su =
        authenticateSession isAuth su) := by
  constructor
  · intro s v hs hv hv2
    have he := extractToken_scheme s v hs hv hv2
    exact ⟨he, by simp [authenticate, he]⟩
  · intro h hh
    have he := extractToken_no_space h hh
    exact ⟨he, by simp [authenticate, he]⟩

theorem bearer_scheme_unchecked_witness :
    extractToken (some ("Basic" ++ " " ++ "xyz")) = some "xyz"
    ∧ authenticate decodeSample "sec" 0 [] (some ("Basic" ++ " " ++ "xyz")) false none =
      authenticateJWT decodeSample "sec" 0 [] (some ("Basic" ++ " " ++ "xyz")) :=
  (bearer_scheme_unchecked decodeSample "sec" 0 [] false none).1
    "Basic" "xyz" (by decide) (by decide) (by decide)

theorem updateUser_length (db : List User) (uid : Nat) (u2 : User) :
    (updateUser db uid u2).length = db.length :=
  List.length_map _ _

theorem googleCallback_link {db : List User} {p : GoogleProfile} {em : String}
    {ex : User} (rt : Option String) (now : Nat)
    (hem : p.emails.head? = some em)
    (hf : db.find? (googleMatch p em) = some ex) :
    ∃ ex2 : User, googleCallback db rt p now =
        .ok (stripPassword ex2, updateUser db ex.id ex2)
      ∧ ex2.id = ex.id ∧ ex2.provider = "google"
      ∧ ex2.providerId = some p.id ∧ ex2.email = ex.email := by
  refine ⟨{ ex with
    provider := "google"
    providerId := some p.id
    refreshToken := (match rt with
      | none => ex.refreshToken
      | some r => some r)
    updatedAt := now }, ?_, rfl, rfl, rfl, rfl⟩
  simp [googleCallback, hem, hf]

theorem googleCallback_create {db : List User} {p : GoogleProfile} {em : String}
    (rt : Option String) (now : Nat)
    (hem : p.emails.head? = some em)
    (hf : db.find? (googleMatch p em) = none) :
    ∃ c : User, googleCallback db rt p now = .ok (stripPassword c, db ++ [c])
      ∧ c.provider = "google" ∧ c.providerId = some p.id ∧ c.email = em
      ∧ c.firstName = jsOrS p.givenName "Unknown"
      ∧ c.lastName = jsOrS p.familyName "User"
      ∧ c.age = 18
      ∧ c.username = (jsSplit em '@').headD "" ++ "_" ++ toString now
      ∧ c.password = none := by
  refine ⟨{
    id := freshId db
    username := (jsSplit em '@').headD "" ++ "_" ++ toString now
    firstName := jsOrS p.givenName "Unknown"
    lastName := jsOrS p.familyName "User"
    email := em
    age := 18
    password := none
    provider := "google"
    providerId := some p.id
    refreshToken := rt
    createdAt := now
    updatedAt := now }, ?_, rfl, rfl, rfl, rfl, rfl, rfl, rfl, rfl⟩
  simp [googleCallback, hem, hf]

theorem githubCallback_link {db : List User} {p : GitHubProfile} {ex : User}
    (rt : Option String) (now : Nat)
    (hf : db.find? (githubMatch p) = some ex) :
    ∃ ex2 : User, githubCallback db rt p now =
        (stripPassword ex2, updateUser db ex.id ex2)
      ∧ ex2.id = ex.id ∧ ex2.provider = "github"
      ∧ ex2.providerId = some p.id ∧ ex2.email = ex.email := by
  refine ⟨{ ex with
    provider := "github"
    providerId := some p.id
    refreshToken := (match rt with
      | none => ex.refreshToken
      | some r => some r)
    updatedAt := now }, ?_, rfl, rfl, rfl, rfl⟩
  simp [githubCallback, hf]

theorem githubCallback_create {db : List User} {p : GitHubProfile}
    (rt : Option String) (now : Nat)
    (hf : db.find? (githubMatch p) = none) :
    ∃ c : User, githubCallback db rt p now = (stripPassword c, db ++ [c])
      ∧ c.provider = "github" ∧ c.providerId = some p.id
      ∧ c.email = jsOrS p.emails.head? (jsStr p.username ++ "@github.local")
      ∧ c.username = jsOrS p.username
        (jsOrS (p.displayName.map ghSlug) ("github_user_" ++ toString now))
      ∧ c.firstName = jsOrS (p.displayName.map (fun d => (jsSplit d ' ').headD ""))
        (jsOrS p.username "Unknown")
      ∧ c.lastName = jsOrS
        (p.displayName.map (fun d => String.intercalate " " ((jsSplit d ' ').drop 1)))
        "User"
      ∧ c.age = 18 ∧ c.password = none := by
  refine ⟨{
    id := freshId db
    username := jsOrS p.username
      (jsOrS (p.displayName.map ghSlug) ("github_user_" ++ toString now))
    firstName := jsOrS (p.displayName.map (fun d => (jsSplit d ' ').headD ""))
      (jsOrS p.username "Unknown")
    lastName := jsOrS
      (p.displayName.map (fun d => String.intercalate " " ((jsSplit d ' ').drop 1)))
      "User"
    email := jsOrS p.emails.head? (jsStr p.username ++ "@github.local")
    age := 18
    password := none
    provider := "github"
    providerId := some p.id
    refreshToken := rt
    createdAt := now
    updatedAt := now }, ?_, rfl, rfl, rfl, rfl, rfl, rfl, rfl, rfl⟩
  simp [githubCallback, hf]

/-- C6: OAuth resolution is idempotent: a second call with the identical
provider, external id and email (any later clock) returns a user with
the same id as the first call and leaves the number of records
unchanged — no duplicate is created.  Stated for both the Google and
the GitHub callback. -/
theorem resolveOAuth_idempotent :
    (∀ (db : List User) (rt : Option String) (p : GoogleProfile)
      (now now2 : Nat) (u : UserNoPassword) (db2 : List User),
      googleCallback db rt p now = .ok (u, db2) →
      ∃ u2 db3, googleCallback db2 rt p now2 = .ok (u2, db3)
        ∧ u2.id = u.id ∧ db3.length = db2.length)
    ∧ (∀ (db : List User) (rt : Option String) (p : GitHubProfile)
      (now now2 : Nat),
      ∃ u2 db3, githubCallback (githubCallback db rt p now).2 rt p now2 = (u2, db3)
        ∧ u2.id = (githubCallback db rt p now).1.id
        ∧ db3.length = (githubCallback db rt p now).2.length) := by
  constructor
  · intro db rt p now now2 u db2 h
    cases hem : p.emails.head? with
    | none => simp [googleCallback, hem] at h
    | some em =>
      cases hf : db.find? (googleMatch p em) with
      | some ex =>
        obtain ⟨ex2, heq, hid, hprov, hpid, hemail⟩ :=
          googleCallback_link rt now hem hf
        rw [heq] at h
        rw [Except.ok.injEq, Prod.mk.injEq] at h
        obtain ⟨hu, hdb⟩ := h
        have hm2 : googleMatch p em ex2 = true := by
          simp [googleMatch, hprov, hpid]
        have hf2 : (updateUser db ex.id ex2).find? (googleMatch p em) = some ex2 :=
          find?_updateUser ex2 hf hm2
        obtain ⟨ex3, heq2, hid2, _, _, _⟩ := googleCallback_link rt now2 hem hf2
        subst hdb
        refine ⟨stripPassword ex3, _, heq2, ?_, updateUser_length _ _ _⟩
        rw [← hu]
        exact hid2
      | none =>
        obtain ⟨c, heq, hprov, hpid, hcem, _, _, _, _, _⟩ :=
          googleCallback_create rt now hem hf
        rw [heq] at h
        rw [Except.ok.injEq, Prod.mk.injEq] at h
        obtain ⟨hu, hdb⟩ := h
        have hm2 : googleMatch p em c = true := by
          simp [googleMatch, hprov, hpid]
        have hf2 : (db ++ [c]).find? (googleMatch p em) = some c :=
          find?_append_single hf hm2
        obtain ⟨ex3, heq2, hid2, _, _, _⟩ := googleCallback_link rt now2 hem hf2
        subst hdb
        refine ⟨stripPassword ex3, _, heq2, ?_, updateUser_length _ _ _⟩
        rw [← hu]
        show ex3.id = c.id
        exact hid2
  · intro db rt p now now2
    cases hf : db.find? (githubMatch p) with
    | some ex =>
      obtain ⟨ex2, heq, hid, hprov, hpid, hemail⟩ := githubCallback_link rt now hf
      have hm2 : githubMatch p ex2 = true := by
        simp [githubMatch, hprov, hpid]
      have hf2 : (updateUser db ex.id ex2).find? (githubMatch p) = some ex2 :=
        find?_updateUser ex2 hf hm2
      obtain ⟨ex3, heq2, hid2, _, _, _⟩ := githubCallback_link rt now2 hf2
      rw [heq]
      exact ⟨stripPassword ex3, _, heq2, by
        show ex3.id = ex2.id
        exact hid2, updateUser_length _ _ _⟩
    | none =>
      obtain ⟨c, heq, hprov, hpid, _, _, _, _, _, _⟩ := githubCallback_create rt now hf
      have hm2 : githubMatch p c = true := by
        simp [githubMatch, hprov, hpid]
      have hf2 : (db ++ [c]).find? (githubMatch p) = some c :=
        find?_append_single hf hm2
      obtain ⟨ex3, heq2, hid2, _, _, _⟩ := githubCallback_link rt now2 hf2
      rw [heq]
      exact ⟨stripPassword ex3, _, heq2, by
        show ex3.id = c.id
        exact hid2, updateUser_length _ _ _⟩

/-- Google profile for the closed idempotence instance. -/
def gProfileW : GoogleProfile :=
  { id := "gid9", emails := ["z@g.com"], givenName := none, familyName := none }

/-- The row the first `googleCallback` call on the empty store creates
for `gProfileW` at time 5. -/
def gRowW : User :=
  { id := 1, username := "z_5", firstName := "Unknown", lastName := "User",
    email := "z@g.com", age := 18, password := none, provider := "google",
    providerId := some "gid9", refreshToken := none,
    createdAt := 5, updatedAt := 5 }

theorem resolveOAuth_idempotent_witness :
    ∃ u2 db3, googleCallback [gRowW] none gProfileW 6 = .ok (u2, db3)
      ∧ u2.id = (stripPassword gRowW).id ∧ db3.length = [gRowW].length :=
  resolveOAuth_idempotent.1 [] none gProfileW 5 6
    (stripPassword gRowW) [gRowW] (by decide)

/-- Existing Google-linked row that shares the external id used in the
counterexample below. -/
def cxGoog : User :=
  { id := 1, username := "gal", firstName := "G", lastName := "G",
    email := "a@g.com", age := 30, password := none, provider := "google",
    providerId := some "gid1", refreshToken := none,
    createdAt := 0, updatedAt := 0 }

/-- Existing local row whose email the OAuth login reports. -/
def cxLocal : User :=
  { id := 2, username := "loc", firstName := "L", lastName := "L",
    email := "b@x.com", age := 30, password := some "h", provider := "local",
    providerId := none, refreshToken := none,
    createdAt := 0, updatedAt := 0 }

def cxDb : List User := [cxGoog, cxLocal]

/-- Google login reporting the local row's email but carrying the other
row's external id. -/
def cxProfile : GoogleProfile :=
  { id := "gid1", emails := ["b@x.com"], givenName := some "B",
    familyName := some "B" }

/-- C5 counterexample: the OAuth login reports an email equal to the
email of the existing record `cxLocal`, yet the lookup returns the
record matching on (provider, providerId) first, so `cxGoog` (id 1) —
not `cxLocal` (id 2) — is updated and returned, and `cxLocal` stays
untouched with provider still `local`. -/
theorem oauth_email_link_cex :
    cxLocal ∈ cxDb ∧ cxLocal.email = "b@x.com" ∧
    cxProfile.emails = ["b@x.com"] ∧
    (googleCallback cxDb none cxProfile 5).toOption.map (fun r => r.1.id) =
      some 1 ∧
    cxLocal.id = 2 ∧
    (googleCallback cxDb none cxProfile 5).toOption.map
      (fun r => r.2.find? (fun x => x.id == 2)) = some (some cxLocal) ∧
    cxLocal.provider = "local" := by
  decide

/-- C5 amended: the callback updates and returns the *first* record the
store yields for the email-OR-(provider, providerId) lookup.  When the
email-matching record is the only match — in particular for a local
account, provided no other record already carries the OAuth pair — that
record itself is updated (provider flips to the OAuth provider,
providerId and refreshToken are set, the email is kept) and returned,
and no second record is created.  Stated for both providers. -/
theorem oauth_email_link_amended :
    (∀ (db : List User) (rt : Option String) (pid em : String)
      (gn fn : Option String) (now : Nat) (B : User),
      B ∈ db → B.email = em →
      (∀ A ∈ db, A.email = em → A = B) →
      (∀ A ∈ db, A.provider = "google" → A.providerId = some pid → A = B) →
      ∃ B2 : User,
        googleCallback db rt
          { id := pid, emails := [em], givenName := gn, familyName := fn } now =
          .ok (stripPassword B2, updateUser db B.id B2)
        ∧ B2.id = B.id ∧ B2.provider = "google" ∧ B2.providerId = some pid
        ∧ B2.email = B.email
        ∧ (updateUser db B.id B2).length = db.length)
    ∧ (∀ (db : List User) (rt : Option String) (pid em : String)
      (un dn : Option String) (now : Nat) (B : User),
      B ∈ db → B.email = em →
      (∀ A ∈ db, A.email = em → A = B) →
      (∀ A ∈ db, A.provider = "github" → A.providerId = some pid → A = B) →
      ∃ B2 : User,
        githubCallback db rt
          { id := pid, emails := [em], username := un, displayName := dn } now =
          (stripPassword B2, updateUser db B.id B2)
        ∧ B2.id = B.id ∧ B2.provider = "github" ∧ B2.providerId = some pid
        ∧ B2.email = B.email
        ∧ (updateUser db B.id B2).length = db.length) := by
  constructor
  · intro db rt pid em gn fn now B hB hem heuniq hpuniq
    have hmB : googleMatch
        { id := pid, emails := [em], givenName := gn, familyName := fn } em B = true := by
      simp [googleMatch, hem]
    have huniq : ∀ A ∈ db, googleMatch
        { id := pid, emails := [em], givenName := gn, familyName := fn } em A = true →
        A = B := by
      intro A hA hmA
      rcases Bool.or_eq_true_iff.mp hmA with h | h
      · exact heuniq A hA (eq_of_beq h)
      · obtain ⟨h1, h2⟩ := Bool.and_eq_true_iff.mp h
        exact hpuniq A hA (eq_of_beq h1) (eq_of_beq h2)
    have hf := find?_of_unique hB hmB huniq
    obtain ⟨B2, heq, hid, hprov, hpid, hemail⟩ :=
      @googleCallback_link db
        { id := pid, emails := [em], givenName := gn, familyName := fn }
        em B rt now rfl hf
    exact ⟨B2, heq, hid, hprov, hpid, hemail, updateUser_length _ _ _⟩
  · intro db rt pid em un dn now B hB hem heuniq hpuniq
    have hmB : githubMatch
        { id := pid, emails := [em], username := un, displayName := dn } B = true := by
      simp [githubMatch, hem]
    have huniq : ∀ A ∈ db, githubMatch
        { id := pid, emails := [em], username := un, displayName := dn } A = true →
        A = B := by
      intro A hA hmA
      rcases Bool.or_eq_true_iff.mp hmA with h | h
      · have : A.email = em := by simpa using h
        exact heuniq A hA this
      · obtain ⟨h1, h2⟩ := Bool.and_eq_true_iff.mp h
        exact hpuniq A hA (eq_of_beq h1) (eq_of_beq h2)
    have hf := find?_of_unique hB hmB huniq
    obtain ⟨B2, heq, hid, hprov, hpid, hemail⟩ := githubCallback_link rt now hf
    exact ⟨B2, heq, hid, hprov, hpid, hemail, updateUser_length _ _ _⟩

theorem oauth_email_link_amended_witness :
    ∃ B2 : User,
      googleCallback [cxLocal] none
        { id := "gid2", emails := ["b@x.com"], givenName := none,
          familyName := none } 5 =
        .ok (stripPassword B2, updateUser [cxLocal] cxLocal.id B2)
      ∧ B2.id = cxLocal.id ∧ B2.provider = "google"
      ∧ B2.providerId = some "gid2" ∧ B2.email = cxLocal.email
      ∧ (updateUser [cxLocal] cxLocal.id B2).length = [cxLocal].length :=
  oauth_email_link_amended.1 [cxLocal] none "gid2" "b@x.com" none none 5 cxLocal
    (by decide) (by decide) (by decide) (by decide)

/-- C7 counterexample: a Google profile with the optional email list
missing makes the resolver fail (the callback dereferences
`profile.emails[0].value`, which throws and surfaces as `done(error)`)
instead of substituting any default, contradicting "never fails". -/
theorem resolveOAuth_missing_fields_cex :
    googleCallback [] none
      { id := "g1", emails := [], givenName := some "A",
        familyName := some "B" } 0 =
      .error "TypeError: cannot read profile.emails[0]" := rfl

/-- C7 amended: the GitHub resolver never fails on missing optional
fields: missing name parts fall back (through the username) to
"Unknown"/"User", age defaults to 18, and a missing email is replaced by
the placeholder `<profile.username>@github.local` (literally
`undefined@github.local` when the username is missing too, the template
stringification of `undefined`).  The Google resolver substitutes the
same name/age defaults and a synthesized username only when the profile
reports at least one email; a Google profile with no email is the one
case where resolution fails instead of substituting a default. -/
theorem resolveOAuth_defaults_amended :
    (∀ (db : List User) (rt : Option String) (p : GoogleProfile) (now : Nat),
      p.emails ≠ [] → ∃ r, googleCallback db rt p now = .ok r)
    ∧ (∀ (db : List User) (rt : Option String) (pid em : String)
      (rest : List String) (now : Nat),
      db.find? (googleMatch
          { id := pid, emails := em :: rest,
            givenName := none, familyName := none } em) = none →
      ∃ u db2, googleCallback db rt
          { id := pid, emails := em :: rest,
            givenName := none, familyName := none } now = .ok (u, db2)
        ∧ u.firstName = "Unknown" ∧ u.lastName = "User" ∧ u.age = 18
        ∧ u.username = (jsSplit em '@').headD "" ++ "_" ++ toString now
        ∧ u.email = em ∧ db2.length = db.length + 1)
    ∧ (∀ (db : List User) (rt : Option String) (pid un : String) (now : Nat),
      un ≠ "" →
      db.find? (githubMatch
          { id := pid, emails := [], username := some un,
            displayName := none }) = none →
      ∃ u db2, githubCallback db rt
          { id := pid, emails := [],
            username := some un, displayName := none } now = (u, db2)
        ∧ u.email = un ++ "@github.local" ∧ u.username = un
        ∧ u.firstName = un ∧ u.lastName = "User" ∧ u.age = 18
        ∧ db2.length = db.length + 1)
    ∧ (∀ (db : List User) (rt : Option String) (pid : String) (now : Nat),
      db.find? (githubMatch
          { id := pid, emails := [], username := none,
            displayName := none }) = none →
      ∃ u db2, githubCallback db rt
          { id := pid, emails := [],
            username := none, displayName := none } now = (u, db2)
        ∧ u.firstName = "Unknown" ∧ u.lastName = "User" ∧ u.age = 18
        ∧ u.email = "undefined@github.local"
        ∧ u.username = "github_user_" ++ toString now
        ∧ db2.length = db.length + 1) := by
  refine ⟨?_, ?_, ?_, ?_⟩
  · intro db rt p now hne
    cases hpe : p.emails with
    | nil => exact absurd hpe hne
    | cons em rest =>
      have hem : p.emails.head? = some em := by rw [hpe]; rfl
      cases hf : db.find? (googleMatch p em) with
      | some ex =>
        obtain ⟨ex2, heq, _, _, _, _⟩ := googleCallback_link rt now hem hf
        exact ⟨_, heq⟩
      | none =>
        obtain ⟨c, heq, _⟩ := googleCallback_create rt now hem hf
        exact ⟨_, heq⟩
  · intro db rt pid em rest now hf
    obtain ⟨c, heq, hprov, hpid2, hcem, hfn, hln, hage, hcun, hpw⟩ :=
      @googleCallback_create db
        { id := pid, emails := em :: rest, givenName := none, familyName := none }
        em rt now rfl hf
    refine ⟨stripPassword c, db ++ [c], heq, ?_, ?_, hage, ?_, hcem, by simp⟩
    · show c.firstName = "Unknown"
      rw [hfn]
      rfl
    · show c.lastName = "User"
      rw [hln]
      rfl
    · exact hcun
  · intro db rt pid un now hun hf
    obtain ⟨c, heq, hprov, hpid2, hcem, hcun, hcfn, hcln, hage, hpw⟩ :=
      githubCallback_create rt now hf
    refine ⟨stripPassword c, db ++ [c], heq, ?_, ?_, ?_, ?_, hage, by simp⟩
    · show c.email = un ++ "@github.local"
      rw [hcem]
      simp [jsOrS, jsStr]
    · show c.username = un
      rw [hcun]
      simp [jsOrS, hun]
    · show c.firstName = un
      rw [hcfn]
      simp [jsOrS, hun]
    · show c.lastName = "User"
      rw [hcln]
      rfl
  · intro db rt pid now hf
    obtain ⟨c, heq, hprov, hpid2, hcem, hcun, hcfn, hcln, hage, hpw⟩ :=
      githubCallback_create rt now hf
    refine ⟨stripPassword c, db ++ [c], heq, ?_, ?_, hage, ?_, ?_, by simp⟩
    · show c.firstName = "Unknown"
      rw [hcfn]
      rfl
    · show c.lastName = "User"
      rw [hcln]
      rfl
    · show c.email = "undefined@github.local"
      rw [hcem]
      rfl
    · show c.username = "github_user_" ++ toString now
      rw [hcun]
      rfl

theorem resolveOAuth_defaults_amended_witness :
    ∃ u db2, githubCallback [] none
        { id := "gh7", emails := [], username := some "octo",
          displayName := none } 9 = (u, db2)
      ∧ u.email = "octo" ++ "@github.local" ∧ u.username = "octo"
      ∧ u.firstName = "octo" ∧ u.lastName = "User" ∧ u.age = 18
      ∧ db2.length = ([] : List User).length + 1 :=
  resolveOAuth_defaults_amended.2.2.1 [] none "gh7" "octo" 9 (by decide) rfl

theorem viewJson_keys (u : UserView) : (viewJson u).map Prod.fst =
    ["id", "username", "firstName", "lastName", "email", "age", "provider",
     "createdAt", "updatedAt"] := rfl

theorem strippedJson_keys (u : UserNoPassword) : (strippedJson u).map Prod.fst =
    ["id", "username", "firstName", "lastName", "email", "age", "provider",
     "providerId", "refreshToken", "createdAt", "updatedAt"] := rfl

/-- C9: no user object crossing the public interface carries a
`password` key: successful registration, local login, either OAuth
callback, `getProfile` and `updateProfile` all return user objects whose
serialized field list omits the password (the stored hash). -/
theorem no_password_in_responses :
    (∀ (hash : String → String) (secret : String) (expiresIn now : Nat)
      (db : List User) (un fn ln em : String) (age : Nat) (pw : String)
      (u : UserView) (tok : Jwt) (db2 : List User),
      register hash secret expiresIn now db un fn ln em age pw =
        (.created u tok, db2) →
      "password" ∉ (viewJson u).map Prod.fst)
    ∧ (∀ (verify : String → String → Bool) (db : List User)
      (em pw : String) (u : UserNoPassword),
      localStrategy verify db em pw = .strategyOk u →
      "password" ∉ (strippedJson u).map Prod.fst)
    ∧ (∀ (db : List User) (rt : Option String) (p : GoogleProfile) (now : Nat)
      (u : UserNoPassword) (db2 : List User),
      googleCallback db rt p now = .ok (u, db2) →
      "password" ∉ (strippedJson u).map Prod.fst)
    ∧ (∀ (db : List User) (rt : Option String) (p : GitHubProfile) (now : Nat),
      "password" ∉ (strippedJson (githubCallback db rt p now).1).map Prod.fst)
    ∧ (∀ (db : List User) (uid : Nat) (u : UserView),
      getProfile db uid = .ok u → "password" ∉ (viewJson u).map Prod.fst)
    ∧ (∀ (db : List User) (uid now : Nat) (un fn ln em : Option String)
      (age : Option Nat) (u : UserView) (db2 : List User),
      updateProfile db uid now un fn ln em age = (.ok u, db2) →
      "password" ∉ (viewJson u).map Prod.fst) := by
  refine ⟨?_, ?_, ?_, ?_, ?_, ?_⟩
  · intro hash secret expiresIn now db un fn ln em age pw u tok db2 h
    rw [viewJson_keys]
    decide
  · intro verify db em pw u h
    rw [strippedJson_keys]
    decide
  · intro db rt p now u db2 h
    rw [strippedJson_keys]
    decide
  · intro db rt p now
    rw [strippedJson_keys]
    decide
  · intro db uid u h
    rw [viewJson_keys]
    decide
  · intro db uid now un fn ln em age u db2 h
    rw [viewJson_keys]
    decide

theorem no_password_in_responses_witness :
    "password" ∉ (viewJson
      { id := 1, username := "jdoe", firstName := "J", lastName := "D",
        email := "j@x.com", age := 30, provider := "local",
        createdAt := 0, updatedAt := 0 }).map Prod.fst :=
  no_password_in_responses.1 (fun s => s ++ "#") "sec" defaultExpiresIn 0 []
    "jdoe" "J" "D" "j@x.com" 30 "pw"
    { id := 1, username := "jdoe", firstName := "J", lastName := "D",
      email := "j@x.com", age := 30, provider := "local",
      createdAt := 0, updatedAt := 0 }
    (generateToken 1 0 "sec" defaultExpiresIn)
    [{ id := 1, username := "jdoe", firstName := "J", lastName := "D",
       email := "j@x.com", age := 30, password := some "pw#",
       provider := "local", providerId := none, refreshToken := none,
       createdAt := 0, updatedAt := 0 }] (by decide)
